import Mathlib

/-!
# ElasticSearch client: search result extraction, query builders, bulk seeding

A shallow embedding of `searches/*.go` and `dummyData/main.go`.

* Go values of type `interface{}` obtained from `encoding/json` are the
  inductive type `Json`; a `map[string]interface{}` is an association list whose
  lookup returns the first entry of a key (a Go map has distinct keys).
* A finite `float64` is the dyadic number `mant * 2 ^ exp`.
* A Go function has three possible outcomes: it returns a result, it returns an
  error, or a failed type assertion makes it panic.
-/

namespace ElasticSearch

/-! ## Numbers -/

/-- A finite `float64`: the number `mant * 2 ^ exp`. -/
structure Float64 where
  mant : Int
  exp : Int
deriving DecidableEq, Repr

namespace Float64

/-- The zero value of `float64`. -/
def zero : Float64 := ⟨0, 0⟩

/-- The number with its fractional part discarded (truncation toward zero). -/
def trunc (f : Float64) : Int :=
  if 0 ≤ f.exp then f.mant * 2 ^ f.exp.toNat else Int.tdiv f.mant (2 ^ (-f.exp).toNat)

end Float64

/-- The `int64` range. -/
def inInt64 (n : Int) : Prop := -(2 : Int) ^ 63 ≤ n ∧ n < (2 : Int) ^ 63

instance (n : Int) : Decidable (inInt64 n) := by
  unfold inInt64; exact inferInstance

/-- Go's conversion `int64(f)` of a `float64`: the fraction is discarded; when the
truncated value does not fit `int64` the result is implementation-dependent,
given here by `impl`. -/
def toInt64 (impl : Float64 → Int) (f : Float64) : Int :=
  if inInt64 f.trunc then f.trunc else impl f

/-! ## Decoded JSON documents -/

/-- What `encoding/json` stores in an `interface{}`. -/
inductive Json where
  | null
  | bool (b : Bool)
  | num (f : Float64)
  | str (s : String)
  | arr (xs : List Json)
  | obj (kvs : List (String × Json))

/-- A `map[string]interface{}`. -/
abbrev JMap := List (String × Json)

/-- Indexing a map: `m[key]`, `none` standing for the nil interface of a missing key. -/
def index (m : JMap) (key : String) : Option Json := m.lookup key

/-- The comma-ok assertion `x.(map[string]interface{})`. -/
def asMap : Option Json → Option JMap
  | some (.obj m) => some m
  | _ => none

/-- The comma-ok assertion `x.([]interface{})`. -/
def asList : Option Json → Option (List Json)
  | some (.arr xs) => some xs
  | _ => none

/-- The comma-ok assertion `x.(float64)`. -/
def asFloat : Option Json → Option Float64
  | some (.num f) => some f
  | _ => none

/-! ## Outcomes -/

/-- The errors the search functions return. -/
inductive SearchError where
  | marshal
  | transport (cause : String)
  | engine (status : Nat)
  | parse
  | unmarshalType (field : String)
deriving DecidableEq, Repr

/-- How a call of a Go function with results `(*T, error)` ends. -/
inductive Outcome (α : Type) where
  | returns (r : α)
  | fails (e : SearchError)
  | panics
deriving DecidableEq, Repr

/-! ## Products and their decoding -/

/-- The struct `Product` of the search package. -/
structure Product where
  ID : String
  Name : String
  Description : String
  Price : Float64
  Categories : List String
  Brand : String
  InStock : Bool
  Rating : Float64
deriving DecidableEq, Repr

/-- The zero value of `Product` (`var product Product`). -/
def Product.zero : Product :=
  { ID := "", Name := "", Description := "", Price := Float64.zero, Categories := [],
    Brand := "", InStock := false, Rating := Float64.zero }

/-- The fields of `Product`. -/
inductive Field where
  | id | name | description | price | categories | brand | in_stock | rating
deriving DecidableEq, Repr

/-- The `json:"..."` tag of a field. -/
def Field.tag : Field → String
  | .id => "id"
  | .name => "name"
  | .description => "description"
  | .price => "price"
  | .categories => "categories"
  | .brand => "brand"
  | .in_stock => "in_stock"
  | .rating => "rating"

/-- The fields in declaration order. -/
def Field.all : List Field :=
  [.id, .name, .description, .price, .categories, .brand, .in_stock, .rating]

/-- Case folding of one rune as `encoding/json` applies it to object keys: ASCII
lower case letters go to upper case, and the two non-ASCII runes whose fold
orbit holds an ASCII letter (U+017F, U+212A) go to `S` and `K`. -/
def foldRune (c : Char) : Char :=
  if 'a'.toNat ≤ c.toNat ∧ c.toNat ≤ 'z'.toNat then Char.ofNat (c.toNat - 32)
  else if c.toNat = 0x017F then 'S'
  else if c.toNat = 0x212A then 'K'
  else c

/-- The folded form of a key. -/
def foldName (s : String) : String := String.mk (s.data.map foldRune)

/-- The struct field an object key is stored into: the field whose tag is the
key, else the field whose tag equals the key up to case folding, else none
(the key is skipped). -/
def fieldOf (key : String) : Option Field :=
  match Field.all.find? (fun f => f.tag = key) with
  | some f => some f
  | none => Field.all.find? (fun f => foldName f.tag = foldName key)

/-- Decoding a JSON array into `[]string`: a string element is appended, `null`
leaves the zero value, anything else is a type error. -/
def stringElems : List Json → Option (List String)
  | [] => some []
  | .str s :: rest => (stringElems rest).map (s :: ·)
  | .null :: rest => (stringElems rest).map ("" :: ·)
  | _ :: _ => none

/-- Storing one JSON value into one field of the struct, as `json.Unmarshal`
does: `null` leaves a scalar field untouched and sets a slice to nil, a value of
the field's JSON type is stored, any other value is an `UnmarshalTypeError`. -/
def store (p : Product) : Field → Json → Except SearchError Product
  | .categories, .null => .ok { p with Categories := [] }
  | _, .null => .ok p
  | .id, .str s => .ok { p with ID := s }
  | .name, .str s => .ok { p with Name := s }
  | .description, .str s => .ok { p with Description := s }
  | .brand, .str s => .ok { p with Brand := s }
  | .price, .num f => .ok { p with Price := f }
  | .rating, .num f => .ok { p with Rating := f }
  | .in_stock, .bool b => .ok { p with InStock := b }
  | .categories, .arr xs =>
    match stringElems xs with
    | some ss => .ok { p with Categories := ss }
    | none => .error (.unmarshalType Field.categories.tag)
  | fld, _ => .error (.unmarshalType fld.tag)

/-- One object member read by the decoder. -/
def assign (p : Product) (kv : String × Json) : Except SearchError Product :=
  match fieldOf kv.1 with
  | some fld => store p fld kv.2
  | none => .ok p

/-- Strict lexicographic order on rune sequences (the byte order of their UTF-8
encodings). -/
def runesLess : List Char → List Char → Bool
  | _, [] => false
  | [], _ :: _ => true
  | a :: as, b :: bs => decide (a.toNat < b.toNat) || (decide (a.toNat = b.toNat) && runesLess as bs)

/-- Key order of `json.Marshal` on a map: members are written sorted by key. -/
def keyLE (a b : String × Json) : Prop := runesLess b.1.data a.1.data = false

instance : DecidableRel keyLE := fun a b => by
  unfold keyLE; exact inferInstance

/-- The round trip `json.Marshal(source)` then `json.Unmarshal(sourceBytes, &product)`:
the members of the map, in sorted key order, are stored one after the other
into a zero `Product`; the first type error is the error returned. -/
def decodeProduct (source : JMap) : Except SearchError Product :=
  (source.insertionSort keyLE).foldlM assign Product.zero

/-! ## The extraction step of `executeSearch` -/

/-- The struct `SearchResult`. -/
structure SearchResult where
  Total : Int
  Items : List Product
  Aggs : Option JMap

/-- The block `// Extract total`: the new value of `searchResult.Total`. -/
def extractTotal (impl : Float64 → Int) (result : JMap) : Outcome Int :=
  match asMap (index result "hits") with
  | some hits =>
    match asMap (index hits "total") with
    | some total =>
      match asFloat (index total "value") with
      | some f => .returns (toInt64 impl f)
      | none => .panics
    | none => .returns 0
  | none => .returns 0

/-- The loop `for _, hit := range hitsList`, `items` being `searchResult.Items`
on entry. -/
def extractHits (items : List Product) : List Json → Outcome (List Product)
  | [] => .returns items
  | hit :: rest =>
    match hit with
    | .obj hitMap =>
      match asMap (index hitMap "_source") with
      | some source =>
        match decodeProduct source with
        | .error e => .fails e
        | .ok product => extractHits (items ++ [product]) rest
      | none => .panics
    | _ => .panics

/-- The block `// Extract items`. -/
def extractItems (result : JMap) : Outcome (List Product) :=
  match asMap (index result "hits") with
  | some hits =>
    match asList (index hits "hits") with
    | some hitsList => extractHits [] hitsList
    | none => .returns []
  | none => .returns []

/-- The block `// Extract aggregations if present`. -/
def extractAggs (result : JMap) : Option JMap :=
  asMap (index result "aggregations")

/-- The part of `executeSearch` after the response body is decoded into
`result`: total, then items, then aggregations. -/
def extract (impl : Float64 → Int) (result : JMap) : Outcome SearchResult :=
  match extractTotal impl result with
  | .returns total =>
    match extractItems result with
    | .returns items => .returns { Total := total, Items := items, Aggs := extractAggs result }
    | .fails e => .fails e
    | .panics => .panics
  | .fails e => .fails e
  | .panics => .panics

/-! ## Vocabulary for the statements about extraction -/

/-- The number a `float64` stands for. -/
def Float64.toRat (f : Float64) : ℚ := (f.mant : ℚ) * (2 : ℚ) ^ f.exp

/-- What the loop body reads from one hit: `hit.(map[string]interface{})` and then
`hitMap["_source"].(map[string]interface{})`; `none` when either assertion
panics. -/
def sourceOf : Json → Option JMap
  | .obj hitMap => asMap (index hitMap "_source")
  | _ => none

/-- The field `fld` of the product holds the zero value of its type. -/
def Product.zeroAt (p : Product) : Field → Prop
  | .id => p.ID = ""
  | .name => p.Name = ""
  | .description => p.Description = ""
  | .price => p.Price = Float64.zero
  | .categories => p.Categories = []
  | .brand => p.Brand = ""
  | .in_stock => p.InStock = false
  | .rating => p.Rating = Float64.zero

/-- No member of the source document is stored into the field `fld`. -/
def lacks (source : JMap) (fld : Field) : Prop :=
  ∀ kv ∈ source, fieldOf kv.1 ≠ some fld

instance (source : JMap) (fld : Field) : Decidable (lacks source fld) := by
  unfold lacks; exact inferInstance

/-- The value `v` can be stored into the field `fld` without a type error. -/
def accepts (fld : Field) (v : Json) : Bool :=
  match store Product.zero fld v with
  | .ok _ => true
  | .error _ => false

/-- Every member of the source document that is stored into a field has a value
of that field's type. -/
def wellTyped (source : JMap) : Prop :=
  ∀ kv ∈ source, ∀ fld ∈ fieldOf kv.1, accepts fld kv.2 = true

instance (source : JMap) : Decidable (wellTyped source) := by
  unfold wellTyped; exact inferInstance

/-- Within `hits`, a `total` that is a mapping carries a number under `value`. -/
def totalCarriesValue (hits : JMap) : Prop :=
  ∀ total, asMap (index hits "total") = some total → ∃ f, index total "value" = some (.num f)

/-- The hit is decoded into `item`: its `_source` mapping decodes to `item`. -/
def decodesTo (hit : Json) (item : Product) : Prop :=
  ∃ src, sourceOf hit = some src ∧ decodeProduct src = .ok item

/-- The hit holds a `_source` mapping whose decoding is a type error. -/
def undecodable (hit : Json) : Prop :=
  ∃ src e, sourceOf hit = some src ∧ decodeProduct src = .error e

/-- The out-of-range result of `int64(f)` on amd64: the minimum `int64`. -/
def amd64 : Float64 → Int := fun _ => -(2 : Int) ^ 63

/-! ### Sample response documents -/

/-- The response `{"hits": {"total": {"value": 42, "relation": "eq"}}}`. -/
def sampleTotal42 : JMap :=
  [("hits", .obj [("total", .obj [("value", .num ⟨42, 0⟩), ("relation", .str "eq")])])]

/-- The response `{"hits": {"total": {"value": 42.5, "relation": "eq"}}}`
(`42.5 = 85 * 2 ^ (-1)`). -/
def sampleTotalFraction : JMap :=
  [("hits", .obj [("total", .obj [("value", .num ⟨85, -1⟩), ("relation", .str "eq")])])]

/-- The response `{"hits": {"total": {"value": 9223372036854775808, "relation": "gte"}}}`
(the value is `2 ^ 63`, one above the largest `int64`). -/
def sampleTotalHuge : JMap :=
  [("hits", .obj [("total", .obj [("value", .num ⟨1, 63⟩), ("relation", .str "gte")])])]

/-- The response `{"hits": {"total": {"value": 42, "relation": "eq"},
"hits": [{"_source": {"id": 7}}]}}`: the only hit has a number where `id` is a string. -/
def sampleTotal42BadHit : JMap :=
  [("hits", .obj [("total", .obj [("value", .num ⟨42, 0⟩), ("relation", .str "eq")]),
                  ("hits", .arr [.obj [("_source", .obj [("id", .num ⟨7, 0⟩)])]])])]

/-- The response `{"hits": {"total": 7, "hits": []}}`: a bare total. -/
def sampleBareTotal : JMap :=
  [("hits", .obj [("total", .num ⟨7, 0⟩), ("hits", .arr [])])]

/-- A source document with every `Product` field but `rating`. -/
def sourceNoRating : JMap :=
  [("id", .str "1"), ("name", .str "Dell Gaming Laptop"), ("description", .str "A laptop"),
   ("price", .num ⟨999, 0⟩), ("categories", .arr [.str "Laptops", .str "Gaming"]),
   ("brand", .str "Dell"), ("in_stock", .bool true)]

/-- The response with total 1 whose only hit has the source `sourceNoRating`. -/
def sampleNoRating : JMap :=
  [("hits", .obj [("total", .obj [("value", .num ⟨1, 0⟩), ("relation", .str "eq")]),
                  ("hits", .arr [.obj [("_id", .str "1"), ("_source", .obj sourceNoRating)]])])]

/-- The response whose first hit has no `_source` and whose second hit has a
source that does not decode (`id` is a number). -/
def sampleHitWithoutSource : JMap :=
  [("hits", .obj [("total", .obj [("value", .num ⟨2, 0⟩), ("relation", .str "eq")]),
                  ("hits", .arr [.obj [("_id", .str "1")],
                                 .obj [("_id", .str "2"), ("_source", .obj [("id", .num ⟨7, 0⟩)])]])])]

/-- The aggregations `{"avg_price": {"value": 1500}}`. -/
def sampleAggs : JMap := [("avg_price", .obj [("value", .num ⟨1500, 0⟩)])]

/-- The response `{"hits": {"total": {"relation": "eq"}, "hits": []},
"aggregations": {"avg_price": {"value": 1500}}}`: no hit, a total mapping
without `value`. -/
def sampleAggsTotalWithoutValue : JMap :=
  [("hits", .obj [("total", .obj [("relation", .str "eq")]), ("hits", .arr [])]),
   ("aggregations", .obj sampleAggs)]

/-- The response `{"aggregations": {"avg_price": {"value": 1500}}}`: no `hits` at all. -/
def sampleAggsOnly : JMap := [("aggregations", .obj sampleAggs)]

/-! ## Query documents and the search call -/

/-- The Go values the builders put into a query document (`interface{}`). -/
inductive Value where
  | int (n : Int)
  | str (s : String)
  | strs (xs : List String)
  | map (kvs : List (String × Value))
  | other (marshals : Bool)

/-- A query document, `map[string]interface{}`. -/
abbrev Query := List (String × Value)

mutual
/-- Whether `json.Marshal` accepts the value (`other false` stands for a value it
rejects, such as a channel or a function). -/
def Value.marshals : Value → Bool
  | .map kvs => marshalsAll kvs
  | .other b => b
  | _ => true
/-- Whether `json.Marshal` accepts every member of a map. -/
def marshalsAll : List (String × Value) → Bool
  | [] => true
  | kv :: rest => kv.2.marshals && marshalsAll rest
end

/-- The struct `SearchParams`. -/
structure SearchParams where
  From : Int
  Size : Int
deriving DecidableEq, Repr

/-- The response of the engine as far as `executeSearch` reads it: the status code
and the body decoded into a `map[string]interface{}` (`none` when the body does
not decode). -/
structure Response where
  StatusCode : Nat
  body : Option JMap

/-- The method `IsError` of the response: a status above 299. -/
def Response.IsError (res : Response) : Bool := decide (res.StatusCode > 299)

/-- The struct `SearchClient`: the `Search` call of the engine client, given the
index and the request body, and the index name. -/
structure SearchClient where
  Search : String → Query → Except String Response
  index : String

/-- One run of a search function: the search calls it issued, each with its index
and body, and how it ended. -/
structure Run where
  calls : List (String × Query)
  outcome : Outcome SearchResult

/-- The method `executeSearch`. -/
def executeSearch (sc : SearchClient) (impl : Float64 → Int) (query : Query) : Run :=
  if marshalsAll query then
    match sc.Search sc.index query with
    | .error cause => ⟨[(sc.index, query)], .fails (.transport cause)⟩
    | .ok res =>
      if res.IsError then ⟨[(sc.index, query)], .fails (.engine res.StatusCode)⟩
      else
        match res.body with
        | none => ⟨[(sc.index, query)], .fails .parse⟩
        | some result => ⟨[(sc.index, query)], extract impl result⟩
  else ⟨[], .fails .marshal⟩

/-- The `searchQuery` built by `AggregationSearch`. -/
def AggregationSearch.searchQuery (aggs : Query) : Query :=
  [("size", .int 0), ("aggs", .map aggs)]

/-- The method `AggregationSearch`. -/
def AggregationSearch (sc : SearchClient) (impl : Float64 → Int) (aggs : Query) : Run :=
  executeSearch sc impl (AggregationSearch.searchQuery aggs)

/-- The `searchQuery` built by `MultiMatchSearch`. -/
def MultiMatchSearch.searchQuery (query : String) (fields : List String) : Query :=
  [("query", .map [("multi_match", .map [("query", .str query), ("fields", .strs fields)])])]

/-- The method `MultiMatchSearch`. -/
def MultiMatchSearch (sc : SearchClient) (impl : Float64 → Int) (query : String)
    (fields : List String) : Run :=
  executeSearch sc impl (MultiMatchSearch.searchQuery query fields)

/-- The `searchQuery` built by `MatchSearch`. -/
def MatchSearch.searchQuery (field query : String) (params : SearchParams) : Query :=
  [("from", .int params.From), ("size", .int params.Size),
   ("query", .map [("match", .map [(field, .str query)])])]

/-- The method `MatchSearch`. -/
def MatchSearch (sc : SearchClient) (impl : Float64 → Int) (field query : String)
    (params : SearchParams) : Run :=
  executeSearch sc impl (MatchSearch.searchQuery field query params)

/-- The member of a query document under a key. -/
def Query.member (q : Query) (key : String) : Option Value := q.lookup key

/-- The keys of a query document. -/
def Query.keys (q : Query) : List String := q.map Prod.fst

/-- The path `query.multi_match.fields` of a query document. -/
def Query.multiMatchFields (q : Query) : Option Value :=
  match q.lookup "query" with
  | some (.map inner) =>
    match inner.lookup "multi_match" with
    | some (.map mm) => mm.lookup "fields"
    | _ => none
  | _ => none

/-- An engine that answers every search with status 200 and the body `{}`. -/
def sampleClient : SearchClient :=
  { Search := fun _ _ => .ok { StatusCode := 200, body := some [] }, index := "products" }

/-! ## The seeding program `dummyData/main.go`

Go's `int` is modelled by unbounded integers: the loop counter of `seedData`
never overflows as long as `numProducts` is below the largest `int`. -/

namespace DummyData

/-- The struct `Product` of the seeding program; `CreatedAt` in nanoseconds. -/
structure Product where
  ID : String
  Name : String
  Description : String
  Price : Float64
  Categories : List String
  Brand : String
  InStock : Bool
  Rating : Float64
  CreatedAt : Int
deriving DecidableEq, Repr

/-- The table `brands`. -/
def brands : List String :=
  ["Apple", "Samsung", "Dell", "HP", "Lenovo", "Asus", "Acer", "Microsoft",
   "LG", "Sony", "Intel", "AMD", "Razer", "MSI", "Toshiba"]

/-- The table `categories`. -/
def categories : List String :=
  ["Laptops", "Smartphones", "Tablets", "Desktops", "Monitors",
   "Accessories", "Gaming", "Office", "Student", "Professional"]

/-- The table `productTypes`. -/
def productTypes : List String :=
  ["Laptop", "Smartphone", "Tablet", "Desktop", "Monitor",
   "Keyboard", "Mouse", "Headphones", "Camera", "Printer"]

/-- The table `adjectives`. -/
def adjectives : List String :=
  ["Professional", "Gaming", "Ultra", "Premium", "Basic",
   "Advanced", "Smart", "Portable", "Powerful", "Lightweight"]

/-- The table `features`. -/
def features : List String :=
  ["4K Display", "Touch Screen", "Fast Charging", "Wireless",
   "Bluetooth", "High Performance", "Long Battery Life",
   "Ergonomic Design", "RGB Lighting", "Compact"]

/-- What the random source and the clock yield during one call of
`generateProduct`, in the order of the calls. An integer draw `d` stands for the
result `d % n` of `rand.Intn(n)`. The floating-point results (the rounded
price, the stock flag, the rating) are taken as drawn: their arithmetic is not
modelled. -/
structure Draws where
  productType : Nat
  adjective : Nat
  brand : Nat
  feature1 : Nat
  feature2 : Nat
  numCategories : Nat
  category : Nat → Nat
  price : Float64
  inStock : Bool
  rating : Float64
  age : Nat
  now : Int

/-- `rand.Intn(len(table))` used as an index into the table. -/
def pick (table : List String) (draw : Nat) : String :=
  table.getD (draw % table.length) ""

/-- The function `contains`. -/
def contains : List String → String → Bool
  | [], _ => false
  | s :: rest, item => if s = item then true else contains rest item

/-- The loop `for i := 0; i < numCategories; i++` of `generateProduct`, with
`remaining = numCategories - i` iterations left. -/
def pickCategories (d : Draws) : Nat → Nat → List String → List String
  | 0, _, productCategories => productCategories
  | remaining + 1, i, productCategories =>
    let cat := pick categories (d.category i)
    if contains productCategories cat then pickCategories d remaining (i + 1) productCategories
    else pickCategories d remaining (i + 1) (productCategories ++ [cat])

/-- The function `generateProduct`. -/
def generateProduct (id : Nat) (d : Draws) : Product :=
  let productType := pick productTypes d.productType
  let adjective := pick adjectives d.adjective
  let brand := pick brands d.brand
  let name := brand ++ " " ++ adjective ++ " " ++ productType
  let feature1 := pick features d.feature1
  let feature2 := pick features d.feature2
  let description := "A " ++ adjective ++ " " ++ productType ++ " featuring " ++ feature1 ++
    " and " ++ feature2 ++ ". Perfect for daily use."
  let numCategories := d.numCategories % 2 + 2
  let productCategories := pickCategories d numCategories 0 []
  { ID := toString id,
    Name := name,
    Description := description,
    Price := d.price,
    Categories := productCategories,
    Brand := brand,
    InStock := d.inStock,
    Rating := d.rating,
    CreatedAt := d.now - ((d.age % 365 : Nat) : Int) * 24 * 3600000000000 }

/-- One line of a bulk request body. -/
inductive Line where
  | action (_id : String) (_index : String)
  | document (product : Product)
deriving DecidableEq, Repr

/-- The index mappings `seedData` creates the index with: field name and type. -/
def mappings : List (String × String) :=
  [("id", "keyword"), ("name", "text"), ("description", "text"), ("price", "float"),
   ("categories", "keyword"), ("brand", "keyword"), ("in_stock", "boolean"),
   ("rating", "float"), ("created_at", "date")]

/-- The response of the engine as far as `seedData` reads it. -/
structure Response where
  StatusCode : Nat
deriving DecidableEq, Repr

/-- The method `IsError` of the response: a status above 299. -/
def Response.IsError (res : Response) : Bool := decide (res.StatusCode > 299)

/-- The calls `seedData` makes on the engine client; each returns an error (a
transport failure) or a response. -/
structure Client where
  IndicesDelete : List String → Except String Response
  IndicesCreate : String → List (String × String) → Except String Response
  Bulk : String → List Line → Except String Response
  IndicesRefresh : String → Except String Response

/-- A call issued on the engine client. -/
inductive Call where
  | indicesDelete (names : List String)
  | indicesCreate (name : String) (body : List (String × String))
  | bulk (index : String) (body : List Line)
  | indicesRefresh (index : String)
deriving DecidableEq, Repr

/-- The errors `seedData` returns. -/
inductive SeedError where
  | creatingIndex (cause : String)
  | bulkIndexing (cause : String)
  | bulkIndexingStatus (status : Nat)
  | refreshingIndex (cause : String)
  | refreshingIndexStatus (status : Nat)
deriving DecidableEq, Repr

/-- One run of `seedData` or of a part of it: the calls issued, in order, and the
error returned (`none` for `nil`). -/
structure Run where
  calls : List Call
  err : Option SeedError
deriving DecidableEq, Repr

/-- What one iteration writes into the buffer `bulk`: the action line, then the
document line. -/
def recordLines (indexName : String) (product : Product) : List Line :=
  [.action product.ID indexName, .document product]

/-- The loop `for i := 1; i <= numProducts; i++` of `seedData`, from the
iteration `i` on with `remaining = numProducts + 1 - i` iterations left and the
buffer `bulk`; `draws i` is what the random source yields in iteration `i`. -/
def bulkLoop (client : Client) (indexName : String) (numProducts : Int) (draws : Nat → Draws) :
    Nat → Nat → List Line → Run
  | 0, _, _ => ⟨[], none⟩
  | remaining + 1, i, bulk =>
    let product := generateProduct i (draws i)
    let bulk := bulk ++ recordLines indexName product
    if i % 100 = 0 ∨ (i : Int) = numProducts then
      match client.Bulk indexName bulk with
      | .error cause => ⟨[.bulk indexName bulk], some (.bulkIndexing cause)⟩
      | .ok res =>
        if res.IsError then ⟨[.bulk indexName bulk], some (.bulkIndexingStatus res.StatusCode)⟩
        else
          let rest := bulkLoop client indexName numProducts draws remaining (i + 1) []
          ⟨.bulk indexName bulk :: rest.calls, rest.err⟩
    else bulkLoop client indexName numProducts draws remaining (i + 1) bulk

/-- The step `// Refresh the index` that ends `seedData`. -/
def refresh (client : Client) (indexName : String) : Run :=
  match client.IndicesRefresh indexName with
  | .error cause => ⟨[.indicesRefresh indexName], some (.refreshingIndex cause)⟩
  | .ok res =>
    if res.IsError then ⟨[.indicesRefresh indexName], some (.refreshingIndexStatus res.StatusCode)⟩
    else ⟨[.indicesRefresh indexName], none⟩

/-- The loader part of `seedData`, from `// Bulk indexing setup` to the end: the
loop, then the refresh unless the loop returned an error. -/
def bulkIndexing (client : Client) (indexName : String) (numProducts : Int)
    (draws : Nat → Draws) : Run :=
  let loop := bulkLoop client indexName numProducts draws numProducts.toNat 1 []
  match loop.err with
  | some e => ⟨loop.calls, some e⟩
  | none =>
    let last := refresh client indexName
    ⟨loop.calls ++ last.calls, last.err⟩

/-- The function `seedData`: the index is deleted (an error is only logged) and
created (an error is returned), then the loader part runs. -/
def seedData (client : Client) (indexName : String) (numProducts : Int)
    (draws : Nat → Draws) : Run :=
  match client.IndicesCreate indexName mappings with
  | .error cause =>
    ⟨[.indicesDelete [indexName], .indicesCreate indexName mappings], some (.creatingIndex cause)⟩
  | .ok _ =>
    let load := bulkIndexing client indexName numProducts draws
    ⟨[.indicesDelete [indexName], .indicesCreate indexName mappings] ++ load.calls, load.err⟩

/-! ### Vocabulary for the statements about `seedData` -/

/-- The record ids of batch number `k` (counted from 0) of `n` records:
`100 k + 1, ..., min (100 (k + 1)) n`. -/
def batchIds (n k : Nat) : List Nat := List.range' (100 * k + 1) (min 100 (n - 100 * k))

/-- The batches of `n` records: `⌈n / 100⌉` of them. -/
def batches (n : Nat) : List (List Nat) := (List.range ((n + 99) / 100)).map (batchIds n)

/-- The bulk body holding the records with the given ids: for each id, in order,
its action line and its document line. -/
def payload (indexName : String) (draws : Nat → Draws) (ids : List Nat) : List Line :=
  ids.flatMap (fun i => recordLines indexName (generateProduct i (draws i)))

/-- The bulk call for the records with the given ids. -/
def bulkCall (indexName : String) (draws : Nat → Draws) (ids : List Nat) : Call :=
  .bulk indexName (payload indexName draws ids)

/-- The bulk call with this body succeeds: no transport error, no error status. -/
def bulkSucceeds (client : Client) (indexName : String) (body : List Line) : Bool :=
  match client.Bulk indexName body with
  | .ok res => !res.IsError
  | .error _ => false

/-- The bulk calls for the given batches, one after the other until one fails:
the run of the calls issued and the error of the failing one. -/
def attempt (client : Client) (indexName : String) (draws : Nat → Draws) :
    List (List Nat) → Run
  | [] => ⟨[], none⟩
  | ids :: rest =>
    match client.Bulk indexName (payload indexName draws ids) with
    | .error cause => ⟨[bulkCall indexName draws ids], some (.bulkIndexing cause)⟩
    | .ok res =>
      if res.IsError then
        ⟨[bulkCall indexName draws ids], some (.bulkIndexingStatus res.StatusCode)⟩
      else
        ⟨bulkCall indexName draws ids :: (attempt client indexName draws rest).calls,
         (attempt client indexName draws rest).err⟩

/-- The number of bulk calls among the calls. -/
def countBulk (calls : List Call) : Nat :=
  (calls.filter (fun c => match c with | .bulk _ _ => true | _ => false)).length

/-- The number of refresh calls among the calls. -/
def countRefresh (calls : List Call) : Nat :=
  (calls.filter (fun c => match c with | .indicesRefresh _ => true | _ => false)).length

/-- The same draws in every iteration. -/
def sampleDraws : Nat → Draws := fun _ =>
  { productType := 0, adjective := 1, brand := 2, feature1 := 3, feature2 := 4,
    numCategories := 0, category := fun i => i, price := ⟨999, 0⟩, inStock := true,
    rating := ⟨4, 0⟩, age := 10, now := 0 }

/-- An engine on which every call succeeds with status 200. -/
def healthyClient : Client :=
  { IndicesDelete := fun _ => .ok ⟨200⟩,
    IndicesCreate := fun _ _ => .ok ⟨200⟩,
    Bulk := fun _ _ => .ok ⟨200⟩,
    IndicesRefresh := fun _ => .ok ⟨200⟩ }

/-- An engine on which the bulk call whose first record has id 101 (the second
batch) fails in the transport and every other call succeeds. -/
def secondBatchFails : Client :=
  { healthyClient with
    Bulk := fun index body =>
      if body.head? = some (.action "101" index) then .error "connection reset"
      else .ok ⟨200⟩ }

/-- An engine on which the index cannot be created. -/
def createFails : Client :=
  { healthyClient with IndicesCreate := fun _ _ => .error "connection refused" }

/-- Draws in which `rand.Intn(2)` yields 0, so that `numCategories` is 2, and
every `rand.Intn(len(categories))` yields 0, so that the same category is drawn
twice. -/
def repeatedCategory : Draws :=
  { productType := 0, adjective := 1, brand := 2, feature1 := 3, feature2 := 4,
    numCategories := 0, category := fun _ => 0, price := ⟨999, 0⟩, inStock := true,
    rating := ⟨4, 0⟩, age := 10, now := 0 }

end DummyData

/-! ## The program `crud/main.go` -/

namespace Crud

/-- The struct `User`; `CreatedAt` is `none` for the zero `time.Time`. -/
structure User where
  ID : String
  Name : String
  Email : String
  CreatedAt : Option Int
deriving DecidableEq, Repr

/-- An `error` value made by `fmt.Errorf`: the text of its `Error()` and, when the
format wraps an error with `%w`, the text of the wrapped error. -/
structure GoError where
  Error : String
  Unwrap : Option String
deriving DecidableEq, Repr

/-- `fmt.Errorf(msg)` with nothing wrapped: an error with that text. -/
def errorNew (msg : String) : GoError := { Error := msg, Unwrap := none }

/-- `fmt.Errorf(pre + "%w", err)`: the text is `pre` followed by the text of
`err`, which is wrapped. -/
def errorWrap (pre cause : String) : GoError := { Error := pre ++ cause, Unwrap := some cause }

/-- The response of the engine as far as `GetUser` reads it: the status code, the
rendering `res.String()`, and the body decoded into a
`map[string]interface{}` or the error of the decoder. -/
structure Response where
  StatusCode : Nat
  text : String
  body : Except String JMap

/-- The method `IsError` of the response: a status above 299. -/
def Response.IsError (res : Response) : Bool := decide (res.StatusCode > 299)

/-- The struct `ElasticsearchClient`: the `Get` call of the engine client, given
the index and the document id, and the index name. -/
structure ElasticsearchClient where
  Get : String → String → Except String Response
  index : String

/-- How a call of a method with results `(*User, error)` ends. -/
inductive Outcome where
  | returns (user : User)
  | fails (err : GoError)
  | panics
deriving DecidableEq, Repr

/-- The assertion `x.(string)`; `none` when it fails. -/
def asString : Option Json → Option String
  | some (.str s) => some s
  | _ => none

/-- The method `GetUser`. -/
def GetUser (c : ElasticsearchClient) (userId : String) : Outcome :=
  match c.Get c.index userId with
  | .error cause => .fails (errorWrap "error getting document: " cause)
  | .ok res =>
    if res.IsError then
      if res.StatusCode = 404 then .fails (errorNew "document not found")
      else .fails (errorNew ("error getting document: " ++ res.text))
    else
      match res.body with
      | .error cause => .fails (errorWrap "error parsing response: " cause)
      | .ok result =>
        match asMap (index result "_source") with
        | none => .panics
        | some source =>
          match asString (index source "id") with
          | none => .panics
          | some id =>
            match asString (index source "name") with
            | none => .panics
            | some name =>
              match asString (index source "email") with
              | none => .panics
              | some email =>
                .returns { ID := id, Name := name, Email := email, CreatedAt := none }

/-- An engine that answers every lookup with status 404. -/
def emptyIndex : ElasticsearchClient :=
  { Get := fun _ _ =>
      .ok { StatusCode := 404, text := "[404 Not Found]", body := .ok [("found", .bool false)] },
    index := "users" }

end Crud

/-! # Theorems -/

/-! ## Decoding one source document -/

theorem store_ok_of_accepts (p : Product) (fld : Field) (v : Json) (h : accepts fld v = true) :
    ∃ q, store p fld v = .ok q := by
  unfold accepts at h
  cases fld <;> cases v <;> simp [store] at h ⊢
  case categories.arr xs =>
    cases hs : stringElems xs <;> simp [hs] at h ⊢

theorem store_zeroAt (p q : Product) (f g : Field) (v : Json) (hne : g ≠ f)
    (hz : p.zeroAt f) (h : store p g v = .ok q) : q.zeroAt f := by
  cases g <;> cases v <;> simp [store] at h <;> cases f <;>
    simp_all [Product.zeroAt] <;> (try (subst h; simp_all))
  all_goals
    rename_i xs
    cases hs : stringElems xs <;> simp [hs] at h
    subst h; simp_all

theorem foldlM_assign_ok (l : JMap) :
    ∀ p : Product, (∀ kv ∈ l, ∀ fld ∈ fieldOf kv.1, accepts fld kv.2 = true) →
      ∃ q, l.foldlM assign p = .ok q := by
  induction l with
  | nil => intro p _; exact ⟨p, rfl⟩
  | cons kv rest ih =>
    intro p h
    have hstep : ∃ q, assign p kv = .ok q := by
      unfold assign
      cases hf : fieldOf kv.1 with
      | none => exact ⟨p, rfl⟩
      | some fld => exact store_ok_of_accepts p fld kv.2 (h kv (List.mem_cons_self _ _) fld hf)
    obtain ⟨q, hq⟩ := hstep
    obtain ⟨r, hr⟩ := ih q (fun kv2 hm => h kv2 (List.mem_cons_of_mem _ hm))
    refine ⟨r, ?_⟩
    simp only [List.foldlM_cons, hq]
    exact hr

theorem foldlM_assign_zeroAt (fld : Field) (l : JMap) :
    ∀ p q : Product, (∀ kv ∈ l, fieldOf kv.1 ≠ some fld) → p.zeroAt fld →
      l.foldlM assign p = .ok q → q.zeroAt fld := by
  induction l with
  | nil =>
    intro p q _ hz h
    have h2 : (Except.ok p : Except SearchError Product) = .ok q := h
    exact Except.ok.inj h2 ▸ hz
  | cons kv rest ih =>
    intro p q h hz hfold
    simp only [List.foldlM_cons] at hfold
    cases hstep : assign p kv with
    | error e => rw [hstep] at hfold; cases hfold
    | ok p2 =>
      rw [hstep] at hfold
      have hz2 : p2.zeroAt fld := by
        unfold assign at hstep
        cases hf : fieldOf kv.1 with
        | none =>
          rw [hf] at hstep
          cases hstep; exact hz
        | some g =>
          rw [hf] at hstep
          have hne : g ≠ fld := fun hg => h kv (List.mem_cons_self _ _) (hg ▸ hf)
          exact store_zeroAt p p2 fld g kv.2 hne hz hstep
      exact ih p2 q (fun kv2 hm => h kv2 (List.mem_cons_of_mem _ hm)) hz2 hfold

theorem decodeProduct_ok (source : JMap) (h : wellTyped source) :
    ∃ q, decodeProduct source = .ok q := by
  unfold decodeProduct
  apply foldlM_assign_ok
  intro kv hm
  exact h kv ((List.perm_insertionSort keyLE source).mem_iff.mp hm)

theorem decodeProduct_zeroAt (source : JMap) (fld : Field) (q : Product)
    (h : lacks source fld) (hq : decodeProduct source = .ok q) : q.zeroAt fld := by
  unfold decodeProduct at hq
  refine foldlM_assign_zeroAt fld _ Product.zero q ?_ ?_ hq
  · intro kv hm
    exact h kv ((List.perm_insertionSort keyLE source).mem_iff.mp hm)
  · cases fld <;> rfl

/-! ## The hit loop -/

theorem extractHits_cons (acc : List Product) (hit : Json) (rest : List Json) (src : JMap)
    (h : sourceOf hit = some src) :
    extractHits acc (hit :: rest) =
      match decodeProduct src with
      | .error e => .fails e
      | .ok product => extractHits (acc ++ [product]) rest := by
  cases hit <;> simp only [sourceOf] at h <;> try cases h
  simp only [extractHits, h]

theorem extractHits_spec (hitsList : List Json) :
    ∀ acc : List Product, (∀ hit ∈ hitsList, sourceOf hit ≠ none) →
      ((∃ e, extractHits acc hitsList = .fails e) ∧ ∃ hit ∈ hitsList, undecodable hit) ∨
      (∃ items, extractHits acc hitsList = .returns (acc ++ items) ∧
        List.Forall₂ decodesTo hitsList items ∧ ∀ hit ∈ hitsList, ¬ undecodable hit) := by
  induction hitsList with
  | nil =>
    intro acc _
    exact Or.inr ⟨[], by simp [extractHits], List.Forall₂.nil, by simp⟩
  | cons hit rest ih =>
    intro acc hwf
    cases hs : sourceOf hit with
    | none => exact absurd hs (hwf hit (List.mem_cons_self _ _))
    | some src =>
      rw [extractHits_cons acc hit rest src hs]
      cases hd : decodeProduct src with
      | error e =>
        exact Or.inl ⟨⟨e, rfl⟩, hit, List.mem_cons_self _ _, src, e, hs, hd⟩
      | ok product =>
        have hgood : ¬ undecodable hit := by
          rintro ⟨src2, e, hs2, hd2⟩
          rw [hs] at hs2
          cases hs2
          rw [hd] at hd2
          cases hd2
        rcases ih (acc ++ [product]) (fun h hm => hwf h (List.mem_cons_of_mem _ hm)) with
          ⟨hf, h2, hm2, hu⟩ | ⟨items, hr, hall, hnone⟩
        · exact Or.inl ⟨hf, h2, List.mem_cons_of_mem _ hm2, hu⟩
        · refine Or.inr ⟨product :: items, ?_, List.Forall₂.cons ⟨src, hs, hd⟩ hall, ?_⟩
          · simpa using hr
          · intro h hm
            rcases List.mem_cons.mp hm with rfl | hm
            · exact hgood
            · exact hnone h hm

/-! ## The three blocks together -/

theorem extract_of_total (impl : Float64 → Int) (result : JMap) (t : Int)
    (ht : extractTotal impl result = .returns t) :
    (∀ r, extract impl result = .returns r → r.Total = t) ∧
    (∀ items, extractItems result = .returns items →
      extract impl result = .returns ⟨t, items, extractAggs result⟩) ∧
    (∀ e, extractItems result = .fails e → extract impl result = .fails e) := by
  unfold extract
  rw [ht]
  refine ⟨?_, ?_, ?_⟩
  · intro r hr
    cases hi : extractItems result <;> rw [hi] at hr <;> cases hr
    rfl
  · intro items hi
    rw [hi]
  · intro e hi
    rw [hi]

theorem extractTotal_of_value (impl : Float64 → Int) (result hits : JMap)
    (hhits : asMap (index result "hits") = some hits) (hval : totalCarriesValue hits) :
    ∃ t, extractTotal impl result = .returns t := by
  unfold extractTotal
  rw [hhits]
  cases ht : asMap (index hits "total") with
  | none => exact ⟨0, by simp [ht]⟩
  | some total =>
    obtain ⟨f, hf⟩ := hval total ht
    exact ⟨toInt64 impl f, by simp [ht, hf, asFloat]⟩

theorem trunc_of_toRat (f : Float64) (n : Int) (h : f.toRat = (n : ℚ)) : f.trunc = n := by
  unfold Float64.toRat at h
  unfold Float64.trunc
  by_cases he : 0 ≤ f.exp
  · rw [if_pos he]
    have h2 : (2 : ℚ) ^ f.exp = ((2 : ℚ) ^ f.exp.toNat) := by
      conv_lhs => rw [← Int.toNat_of_nonneg he]
      exact zpow_natCast 2 _
    rw [h2] at h
    exact_mod_cast h
  · rw [if_neg he]
    have hneg : f.exp = -(((-f.exp).toNat : Int)) := by
      rw [Int.toNat_of_nonneg (by omega)]; omega
    have h2 : (2 : ℚ) ^ f.exp = ((2 : ℚ) ^ (-f.exp).toNat)⁻¹ := by
      conv_lhs => rw [hneg]
      rw [zpow_neg, zpow_natCast]
    rw [h2] at h
    have hpos : ((2 : ℚ) ^ (-f.exp).toNat) ≠ 0 := by positivity
    have h3 : (f.mant : ℚ) = (n : ℚ) * (2 : ℚ) ^ (-f.exp).toNat := by
      field_simp at h
      exact h
    have h4 : f.mant = n * 2 ^ (-f.exp).toNat := by exact_mod_cast h3
    rw [h4]
    exact Int.mul_tdiv_cancel _ (by positivity)

/-! ## C1: the total of the nested form -/

/-- C1, as amended. When `hits.total` is a mapping carrying the number `f` under
`value` and the integer part of `f` fits `int64`, the total block sets `Total`
to `f` truncated toward zero, whatever else (such as `relation`) the mapping
holds; every result the extraction returns has that `Total`, one is returned
whenever the item block returns, and `Total` is `f` itself when `f` is a whole
number. -/
theorem total_of_value_mapping (impl : Float64 → Int) (result hits total : JMap) (f : Float64)
    (hhits : asMap (index result "hits") = some hits)
    (htotal : asMap (index hits "total") = some total)
    (hvalue : index total "value" = some (.num f))
    (hfit : inInt64 f.trunc) :
    extractTotal impl result = .returns f.trunc ∧
    (∀ r, extract impl result = .returns r → r.Total = f.trunc) ∧
    (∀ items, extractItems result = .returns items →
      extract impl result = .returns ⟨f.trunc, items, extractAggs result⟩) ∧
    (∀ n : Int, f.toRat = (n : ℚ) → f.trunc = n) := by
  have ht : extractTotal impl result = .returns f.trunc := by
    simp [extractTotal, hhits, htotal, hvalue, asFloat, toInt64, hfit]
  have h := extract_of_total impl result f.trunc ht
  exact ⟨ht, h.1, h.2.1, trunc_of_toRat f⟩

/-- C1, instance: `total = {"value": 42, "relation": "eq"}` yields `Total = 42`. -/
theorem total_of_value_mapping_witness :
    inInt64 (Float64.trunc ⟨42, 0⟩) ∧
    (extractTotal amd64 sampleTotal42 = .returns (Float64.trunc ⟨42, 0⟩) ∧
     (∀ r, extract amd64 sampleTotal42 = .returns r → r.Total = Float64.trunc ⟨42, 0⟩) ∧
     (∀ items, extractItems sampleTotal42 = .returns items →
       extract amd64 sampleTotal42 =
         .returns ⟨Float64.trunc ⟨42, 0⟩, items, extractAggs sampleTotal42⟩) ∧
     (∀ n : Int, Float64.toRat ⟨42, 0⟩ = (n : ℚ) → Float64.trunc ⟨42, 0⟩ = n)) ∧
    Float64.trunc ⟨42, 0⟩ = 42 ∧
    extract amd64 sampleTotal42 = .returns ⟨42, [], none⟩ :=
  ⟨by decide,
   total_of_value_mapping amd64 sampleTotal42
     [("total", .obj [("value", .num ⟨42, 0⟩), ("relation", .str "eq")])]
     [("value", .num ⟨42, 0⟩), ("relation", .str "eq")] ⟨42, 0⟩ rfl rfl rfl (by decide),
   by decide, rfl⟩

/-- C1 as stated fails. With `total = {"value": 42.5, "relation": "eq"}` the
extraction returns `Total = 42`, which is not the number 42.5; with the value
`2 ^ 63` it returns, on amd64, the total `-2 ^ 63`; and with
`total = {"value": 42, "relation": "eq"}` next to a hit that does not decode,
the extraction returns an error and no result at all. -/
theorem total_of_fraction_is_truncated :
    extract amd64 sampleTotalFraction = .returns ⟨42, [], none⟩ ∧
    ((42 : Int) : ℚ) ≠ Float64.toRat ⟨85, -1⟩ ∧
    extract amd64 sampleTotalHuge = .returns ⟨-(2 : Int) ^ 63, [], none⟩ ∧
    ((-(2 : Int) ^ 63 : Int) : ℚ) ≠ Float64.toRat ⟨1, 63⟩ ∧
    extract amd64 sampleTotal42BadHit = .fails (.unmarshalType "id") :=
  ⟨rfl, by norm_num [Float64.toRat], rfl, by norm_num [Float64.toRat], rfl⟩

/-! ## C2: the bare total -/

/-- C2, as amended. When `hits.total` is a bare number (not a mapping) the total
block neither fails nor reads it: `Total` stays 0 whatever the number is, every
result the extraction returns has `Total = 0`, and one is returned whenever the
item block returns. -/
theorem bare_total_is_ignored (impl : Float64 → Int) (result hits : JMap) (f : Float64)
    (hhits : asMap (index result "hits") = some hits)
    (hbare : index hits "total" = some (.num f)) :
    extractTotal impl result = .returns 0 ∧
    (∀ r, extract impl result = .returns r → r.Total = 0) ∧
    (∀ items, extractItems result = .returns items →
      extract impl result = .returns ⟨0, items, extractAggs result⟩) := by
  have ht : extractTotal impl result = .returns 0 := by
    unfold extractTotal
    rw [hhits]
    simp [hbare, asMap]
  have h := extract_of_total impl result 0 ht
  exact ⟨ht, h.1, h.2.1⟩

/-- C2, instance: the response `{"hits": {"total": 7, "hits": []}}`. -/
theorem bare_total_is_ignored_witness :
    extractTotal amd64 sampleBareTotal = .returns 0 ∧
    (∀ r, extract amd64 sampleBareTotal = .returns r → r.Total = 0) ∧
    (∀ items, extractItems sampleBareTotal = .returns items →
      extract amd64 sampleBareTotal = .returns ⟨0, items, extractAggs sampleBareTotal⟩) :=
  bare_total_is_ignored amd64 sampleBareTotal
    [("total", .num ⟨7, 0⟩), ("hits", .arr [])] ⟨7, 0⟩ rfl rfl

/-- C2 as stated fails: for the bare total 7 the extraction returns `Total = 0`,
not 7. -/
theorem bare_total_seven_yields_zero :
    extract amd64 sampleBareTotal = .returns ⟨0, [], none⟩ ∧
    ((0 : Int) : ℚ) ≠ Float64.toRat ⟨7, 0⟩ :=
  ⟨rfl, by norm_num [Float64.toRat]⟩

/-! ## C3: source documents that lack fields -/

/-- C3, as amended. When `hits.total` (if a mapping) carries a number and every
hit holds a `_source` mapping whose members have values of the type of the
field they name, the extraction returns a result and no error, also when
sources lack `Product` fields: one Item per hit, in order, each the decoding of
its hit's source, with the zero value in every field that the source lacks. -/
theorem missing_fields_are_left_zero (impl : Float64 → Int) (result hits : JMap)
    (hitsList : List Json)
    (hhits : asMap (index result "hits") = some hits)
    (hval : totalCarriesValue hits)
    (hlist : asList (index hits "hits") = some hitsList)
    (htyped : ∀ hit ∈ hitsList, ∃ src, sourceOf hit = some src ∧ wellTyped src) :
    ∃ t items, extract impl result = .returns ⟨t, items, extractAggs result⟩ ∧
      List.Forall₂
        (fun hit item => ∃ src, sourceOf hit = some src ∧ decodeProduct src = .ok item ∧
          ∀ fld, lacks src fld → item.zeroAt fld)
        hitsList items := by
  obtain ⟨t, ht⟩ := extractTotal_of_value impl result hits hhits hval
  have hitems : extractItems result = extractHits [] hitsList := by
    simp [extractItems, hhits, hlist]
  have hwf : ∀ hit ∈ hitsList, sourceOf hit ≠ none := by
    intro hit hm
    obtain ⟨src, hs, _⟩ := htyped hit hm
    rw [hs]
    exact Option.some_ne_none src
  rcases extractHits_spec hitsList [] hwf with ⟨_, hit, hm, src, e, hs, hd⟩ | ⟨items, hr, hall, _⟩
  · obtain ⟨src2, hs2, hw⟩ := htyped hit hm
    rw [hs] at hs2
    cases hs2
    obtain ⟨q, hq⟩ := decodeProduct_ok src hw
    rw [hq] at hd
    cases hd
  · refine ⟨t, items, ?_, ?_⟩
    · apply (extract_of_total impl result t ht).2.1
      rw [hitems, hr]
      rfl
    · refine hall.imp ?_
      rintro hit item ⟨src, hs, hd⟩
      exact ⟨src, hs, hd, fun fld hl => decodeProduct_zeroAt src fld item hl hd⟩

/-- C3, instance: the response whose only hit has a source without `rating`. -/
theorem missing_fields_are_left_zero_witness :
    totalCarriesValue
      [("total", .obj [("value", .num ⟨1, 0⟩), ("relation", .str "eq")]),
       ("hits", .arr [.obj [("_id", .str "1"), ("_source", .obj sourceNoRating)]])] ∧
    (∀ hit ∈ [Json.obj [("_id", .str "1"), ("_source", .obj sourceNoRating)]],
      ∃ src, sourceOf hit = some src ∧ wellTyped src) ∧
    ∃ t items, extract amd64 sampleNoRating = .returns ⟨t, items, extractAggs sampleNoRating⟩ ∧
      List.Forall₂
        (fun hit item => ∃ src, sourceOf hit = some src ∧ decodeProduct src = .ok item ∧
          ∀ fld, lacks src fld → item.zeroAt fld)
        [Json.obj [("_id", .str "1"), ("_source", .obj sourceNoRating)]] items :=
  have hval : totalCarriesValue
      [("total", .obj [("value", .num ⟨1, 0⟩), ("relation", .str "eq")]),
       ("hits", .arr [.obj [("_id", .str "1"), ("_source", .obj sourceNoRating)]])] := by
    intro total h
    cases h
    exact ⟨⟨1, 0⟩, rfl⟩
  have htyped : ∀ hit ∈ [Json.obj [("_id", .str "1"), ("_source", .obj sourceNoRating)]],
      ∃ src, sourceOf hit = some src ∧ wellTyped src := by
    intro hit hm
    rw [List.mem_singleton] at hm
    subst hm
    exact ⟨sourceNoRating, rfl, by decide⟩
  ⟨hval, htyped,
   missing_fields_are_left_zero amd64 sampleNoRating _ _ rfl hval rfl htyped⟩

/-- C3 as stated fails: for a hit whose source has no `rating` the extraction
returns no error but a result holding an Item whose `Rating` is the zero value. -/
theorem source_without_rating_is_decoded :
    lacks sourceNoRating Field.rating ∧
    extract amd64 sampleNoRating =
      .returns
        { Total := 1,
          Items := [{ ID := "1", Name := "Dell Gaming Laptop", Description := "A laptop",
                      Price := ⟨999, 0⟩, Categories := ["Laptops", "Gaming"], Brand := "Dell",
                      InStock := true, Rating := Float64.zero }],
          Aggs := none } :=
  ⟨by decide, rfl⟩

/-! ## C4: no hit is dropped -/

/-- C4, as amended. When `hits.total` (if a mapping) carries a number and every
entry of `hits.hits` is a mapping holding a mapping under `_source`, the
extraction either returns an error or returns a result whose `Items` has
exactly as many entries as `hits.hits`, the i-th item being the decoding of the
i-th hit's `_source`; and a hit whose source fails to decode makes the whole
extraction return an error, whatever the other hits are. -/
theorem no_hit_is_dropped (impl : Float64 → Int) (result hits : JMap) (hitsList : List Json)
    (hhits : asMap (index result "hits") = some hits)
    (hval : totalCarriesValue hits)
    (hlist : asList (index hits "hits") = some hitsList)
    (hshape : ∀ hit ∈ hitsList, sourceOf hit ≠ none) :
    ((∃ e, extract impl result = .fails e) ∨
      ∃ t items, extract impl result = .returns ⟨t, items, extractAggs result⟩ ∧
        items.length = hitsList.length ∧ List.Forall₂ decodesTo hitsList items) ∧
    ((∃ hit ∈ hitsList, undecodable hit) → ∃ e, extract impl result = .fails e) := by
  obtain ⟨t, ht⟩ := extractTotal_of_value impl result hits hhits hval
  have hitems : extractItems result = extractHits [] hitsList := by
    simp [extractItems, hhits, hlist]
  have hex := extract_of_total impl result t ht
  rcases extractHits_spec hitsList [] hshape with ⟨⟨e, he⟩, hbad⟩ | ⟨items, hr, hall, hnone⟩
  · have hfail : ∃ e, extract impl result = .fails e :=
      ⟨e, hex.2.2 e (by rw [hitems, he])⟩
    exact ⟨Or.inl hfail, fun _ => hfail⟩
  · refine ⟨Or.inr ⟨t, items, ?_, hall.length_eq.symm, hall⟩, ?_⟩
    · apply hex.2.1
      rw [hitems, hr]
      rfl
    · rintro ⟨hit, hm, hu⟩
      exact absurd hu (hnone hit hm)

/-- C4, instance: the response with one decodable hit. -/
theorem no_hit_is_dropped_witness :
    totalCarriesValue
      [("total", .obj [("value", .num ⟨1, 0⟩), ("relation", .str "eq")]),
       ("hits", .arr [.obj [("_id", .str "1"), ("_source", .obj sourceNoRating)]])] ∧
    (∀ hit ∈ [Json.obj [("_id", .str "1"), ("_source", .obj sourceNoRating)]],
      sourceOf hit ≠ none) ∧
    ((∃ e, extract amd64 sampleNoRating = .fails e) ∨
      ∃ t items, extract amd64 sampleNoRating = .returns ⟨t, items, extractAggs sampleNoRating⟩ ∧
        items.length = [Json.obj [("_id", .str "1"), ("_source", .obj sourceNoRating)]].length ∧
        List.Forall₂ decodesTo
          [Json.obj [("_id", .str "1"), ("_source", .obj sourceNoRating)]] items) ∧
    ((∃ hit ∈ [Json.obj [("_id", .str "1"), ("_source", .obj sourceNoRating)]], undecodable hit) →
      ∃ e, extract amd64 sampleNoRating = .fails e) :=
  have hval : totalCarriesValue
      [("total", .obj [("value", .num ⟨1, 0⟩), ("relation", .str "eq")]),
       ("hits", .arr [.obj [("_id", .str "1"), ("_source", .obj sourceNoRating)]])] := by
    intro total h
    cases h
    exact ⟨⟨1, 0⟩, rfl⟩
  have hshape : ∀ hit ∈ [Json.obj [("_id", .str "1"), ("_source", .obj sourceNoRating)]],
      sourceOf hit ≠ none := by
    intro hit hm
    rw [List.mem_singleton] at hm
    subst hm
    exact Option.some_ne_none sourceNoRating
  ⟨hval, hshape, no_hit_is_dropped amd64 sampleNoRating _ _ rfl hval rfl hshape⟩

/-- C4 as stated fails: when a hit has no `_source` the extraction panics, so it
returns neither an error nor a result, although a later hit has a source that
fails to decode. -/
theorem hit_without_source_panics :
    extract amd64 sampleHitWithoutSource = .panics ∧
    (∀ e, extract amd64 sampleHitWithoutSource ≠ .fails e) ∧
    (∀ r, extract amd64 sampleHitWithoutSource ≠ .returns r) ∧
    undecodable (.obj [("_id", .str "2"), ("_source", .obj [("id", .num ⟨7, 0⟩)])]) := by
  have h : extract amd64 sampleHitWithoutSource = .panics := rfl
  refine ⟨h, ?_, ?_, ⟨[("id", .num ⟨7, 0⟩)], .unmarshalType "id", rfl, rfl⟩⟩
  · intro e he
    rw [h] at he
    cases he
  · intro r hr
    rw [h] at hr
    cases hr

/-! ## C5: responses that hold aggregations only -/

/-- C5, as amended. When the response has no hit entries (`hits` is no mapping,
or `hits.hits` is no list or is empty), `hits.total` (if a mapping) carries a
number, and `aggregations` is the mapping `A`, the extraction returns without
error a result whose `Items` is empty and whose `Aggs` is `A` unchanged. -/
theorem aggregations_pass_through (impl : Float64 → Int) (result A : JMap)
    (haggs : asMap (index result "aggregations") = some A)
    (hnohits : asMap (index result "hits") = none ∨
      ∃ hits, asMap (index result "hits") = some hits ∧ totalCarriesValue hits ∧
        (asList (index hits "hits") = none ∨ asList (index hits "hits") = some [])) :
    ∃ t, extract impl result = .returns ⟨t, [], some A⟩ := by
  have hA : extractAggs result = some A := haggs
  rcases hnohits with hnone | ⟨hits, hhits, hval, hl⟩
  · refine ⟨0, ?_⟩
    have ht : extractTotal impl result = .returns 0 := by
      simp [extractTotal, hnone]
    have hi : extractItems result = .returns [] := by
      simp [extractItems, hnone]
    rw [← hA]
    exact (extract_of_total impl result 0 ht).2.1 [] hi
  · obtain ⟨t, ht⟩ := extractTotal_of_value impl result hits hhits hval
    refine ⟨t, ?_⟩
    have hi : extractItems result = .returns [] := by
      rcases hl with hl | hl <;> simp [extractItems, hhits, hl, extractHits]
    rw [← hA]
    exact (extract_of_total impl result t ht).2.1 [] hi

/-- C5, instance: the response `{"aggregations": {"avg_price": {"value": 1500}}}`. -/
theorem aggregations_pass_through_witness :
    ∃ t, extract amd64 sampleAggsOnly = .returns ⟨t, [], some sampleAggs⟩ :=
  aggregations_pass_through amd64 sampleAggsOnly sampleAggs rfl (Or.inl rfl)

/-- C5 as stated fails: a response with an empty hit list and non-empty
aggregations whose `total` mapping has no `value` makes the extraction panic. -/
theorem aggregations_with_valueless_total_panic :
    asList (index [("total", .obj [("relation", .str "eq")]), ("hits", .arr [])] "hits") = some [] ∧
    asMap (index sampleAggsTotalWithoutValue "aggregations") = some sampleAggs ∧
    sampleAggs ≠ [] ∧
    extract amd64 sampleAggsTotalWithoutValue = .panics ∧
    ∀ r, extract amd64 sampleAggsTotalWithoutValue ≠ .returns r := by
  have h : extract amd64 sampleAggsTotalWithoutValue = .panics := rfl
  refine ⟨rfl, rfl, by simp [sampleAggs], h, ?_⟩
  intro r hr
  rw [h] at hr
  cases hr

/-! ## The search call -/

theorem executeSearch_calls_of_marshals (sc : SearchClient) (impl : Float64 → Int) (q : Query)
    (hm : marshalsAll q = true) : (executeSearch sc impl q).calls = [(sc.index, q)] := by
  unfold executeSearch
  rw [if_pos hm]
  cases sc.Search sc.index q with
  | error cause => rfl
  | ok res =>
    by_cases he : res.IsError = true
    · simp [he]
    · cases hb : res.body <;> simp [he, hb]

theorem executeSearch_outcome_of_marshals (sc : SearchClient) (impl : Float64 → Int) (q : Query)
    (hm : marshalsAll q = true) :
    (executeSearch sc impl q).outcome =
      match sc.Search sc.index q with
      | .error cause => .fails (.transport cause)
      | .ok res =>
        if res.IsError then .fails (.engine res.StatusCode)
        else
          match res.body with
          | none => .fails .parse
          | some result => extract impl result := by
  unfold executeSearch
  rw [if_pos hm]
  cases sc.Search sc.index q with
  | error cause => rfl
  | ok res =>
    by_cases he : res.IsError = true
    · simp [he]
    · cases hb : res.body <;> simp [he, hb]

theorem executeSearch_calls_mem (sc : SearchClient) (impl : Float64 → Int) (q : Query) :
    ∀ call ∈ (executeSearch sc impl q).calls, call = (sc.index, q) := by
  by_cases hm : marshalsAll q = true
  · rw [executeSearch_calls_of_marshals sc impl q hm]
    intro call hc
    exact List.mem_singleton.mp hc
  · intro call hc
    unfold executeSearch at hc
    rw [if_neg hm] at hc
    cases hc

/-! ## C6: the aggregation query -/

/-- C6. For every aggregation mapping `aggs`, the query document built by
`AggregationSearch` has `size` equal to 0 and `aggs` equal to the supplied
mapping, its top-level keys are `size` and `aggs` and no other, and every
search call `AggregationSearch` issues carries that document. -/
theorem aggregation_query_has_size_zero (aggs : Query) :
    (AggregationSearch.searchQuery aggs).member "size" = some (.int 0) ∧
    (AggregationSearch.searchQuery aggs).member "aggs" = some (.map aggs) ∧
    (AggregationSearch.searchQuery aggs).keys = ["size", "aggs"] ∧
    ∀ (sc : SearchClient) (impl : Float64 → Int),
      ∀ call ∈ (AggregationSearch sc impl aggs).calls,
        call = (sc.index, AggregationSearch.searchQuery aggs) :=
  ⟨rfl, rfl, rfl, fun sc impl => executeSearch_calls_mem sc impl _⟩

/-! ## C7: the multi-match query -/

/-- C7, as amended. For every query string and every field list, empty or not,
`MultiMatchSearch` builds a query document whose `fields` entry is the caller's
list in the caller's order and issues exactly one search call carrying it; it
signals no construction error: how it ends is decided by the reply to that call
and by the extraction alone. -/
theorem multi_match_always_searches (sc : SearchClient) (impl : Float64 → Int) (query : String)
    (fields : List String) :
    (MultiMatchSearch.searchQuery query fields).multiMatchFields = some (.strs fields) ∧
    (MultiMatchSearch sc impl query fields).calls =
      [(sc.index, MultiMatchSearch.searchQuery query fields)] ∧
    (MultiMatchSearch sc impl query fields).outcome =
      match sc.Search sc.index (MultiMatchSearch.searchQuery query fields) with
      | .error cause => .fails (.transport cause)
      | .ok res =>
        if res.IsError then .fails (.engine res.StatusCode)
        else
          match res.body with
          | none => .fails .parse
          | some result => extract impl result :=
  ⟨rfl, executeSearch_calls_of_marshals sc impl _ rfl,
   executeSearch_outcome_of_marshals sc impl _ rfl⟩

/-- C7 as stated fails: with an empty field list `MultiMatchSearch` issues a
search call, whose body has the empty `fields` list, and against an engine
that answers 200 it returns a result, not an error. -/
theorem multi_match_with_no_field_searches :
    MultiMatchSearch sampleClient amd64 "gaming laptop" [] =
      { calls := [("products", MultiMatchSearch.searchQuery "gaming laptop" [])],
        outcome := .returns ⟨0, [], none⟩ } ∧
    (MultiMatchSearch.searchQuery "gaming laptop" []).multiMatchFields = some (.strs []) :=
  ⟨rfl, rfl⟩

/-! ## C8: the page window of the match query -/

/-- C8, as amended. For every field, query string and `SearchParams`, the query
document built by `MatchSearch` has the top-level keys `from`, `size` and
`query`, with `from` equal to `params.From` and `size` equal to `params.Size`;
for the zero-value `SearchParams` it carries `from = 0` and `size = 0`. Every
search call `MatchSearch` issues carries that document. -/
theorem match_query_carries_params (field query : String) (params : SearchParams) :
    (MatchSearch.searchQuery field query params).member "from" = some (.int params.From) ∧
    (MatchSearch.searchQuery field query params).member "size" = some (.int params.Size) ∧
    (MatchSearch.searchQuery field query params).keys = ["from", "size", "query"] ∧
    (MatchSearch.searchQuery field query ⟨0, 0⟩).member "from" = some (.int 0) ∧
    (MatchSearch.searchQuery field query ⟨0, 0⟩).member "size" = some (.int 0) ∧
    ∀ (sc : SearchClient) (impl : Float64 → Int),
      (MatchSearch sc impl field query params).calls =
        [(sc.index, MatchSearch.searchQuery field query params)] :=
  ⟨rfl, rfl, rfl, rfl, rfl, fun sc impl => executeSearch_calls_of_marshals sc impl _ rfl⟩

/-- C8 as stated fails: with the zero-value `SearchParams` the document sent to
the engine imposes `size = 0`, which is not the engine default 10. -/
theorem match_query_zero_params_size_zero :
    (MatchSearch.searchQuery "name" "laptop" ⟨0, 0⟩).member "size" = some (.int 0) ∧
    Value.int 0 ≠ Value.int 10 ∧
    (MatchSearch sampleClient amd64 "name" "laptop" ⟨0, 0⟩).calls =
      [("products", [("from", .int 0), ("size", .int 0),
                     ("query", .map [("match", .map [("name", .str "laptop")])])])] := by
  refine ⟨rfl, ?_, rfl⟩
  intro h
  cases h

/-! ## The loader of `seedData` -/
namespace DummyData

theorem payload_concat (indexName : String) (draws : Nat → Draws) (l : List Nat) (i : Nat) :
    payload indexName draws l ++ recordLines indexName (generateProduct i (draws i)) =
      payload indexName draws (l ++ [i]) := by
  simp [payload, List.flatMap_append]

theorem range'_snoc (s m : Nat) : List.range' s m ++ [s + m] = List.range' s (m + 1) := by
  rw [List.range'_concat]; simp

theorem bulkLoop_eq_attempt (client : Client) (indexName : String) (n : Nat)
    (draws : Nat → Draws) :
    ∀ (remaining i q : Nat), i + remaining = n + 1 →
      (0 < remaining → 100 * q + 1 ≤ i ∧ i ≤ 100 * q + 100) →
      (remaining = 0 → n ≤ 100 * q) →
      bulkLoop client indexName (n : Int) draws remaining i
          (payload indexName draws (List.range' (100 * q + 1) (i - (100 * q + 1)))) =
        attempt client indexName draws
          ((List.range ((n + 99) / 100 - q)).map (fun k => batchIds n (q + k))) := by
  intro remaining
  induction remaining with
  | zero =>
    intro i q _ _ h3
    have h0 : (n + 99) / 100 - q = 0 := by
      have := h3 rfl
      omega
    simp [bulkLoop, h0, attempt]
  | succ rem ih =>
    intro i q h1 h2 _
    obtain ⟨ha, hb⟩ := h2 (Nat.succ_pos _)
    have hq : (n + 99) / 100 - q = ((n + 99) / 100 - (q + 1)) + 1 := by omega
    have hstep : payload indexName draws (List.range' (100 * q + 1) (i - (100 * q + 1))) ++
        recordLines indexName (generateProduct i (draws i)) =
        payload indexName draws (List.range' (100 * q + 1) (i - (100 * q + 1) + 1)) := by
      rw [payload_concat, ← range'_snoc]
      congr 3
      omega
    simp only [bulkLoop]
    rw [hstep]
    by_cases hflush : i % 100 = 0 ∨ (i : Int) = (n : Int)
    · rw [if_pos hflush]
      have hflush2 : i = 100 * q + 100 ∨ i = n := by omega
      have hids : batchIds n q = List.range' (100 * q + 1) (i - (100 * q + 1) + 1) := by
        unfold batchIds
        congr 1
        omega
      have hnext := ih (i + 1) (q + 1) (by omega) (by intro; omega) (by intro; omega)
      have hempty : List.range' (100 * (q + 1) + 1) (i + 1 - (100 * (q + 1) + 1)) = [] := by
        have : i + 1 - (100 * (q + 1) + 1) = 0 := by omega
        rw [this]; rfl
      rw [hempty] at hnext
      have hnil : payload indexName draws [] = [] := rfl
      rw [hnil] at hnext
      rw [hq, List.range_succ_eq_map, List.map_cons, List.map_map]
      simp only [attempt, Nat.add_zero]
      rw [← hids, hnext]
      have hfun : ((fun k => batchIds n (q + k)) ∘ Nat.succ) = fun k => batchIds n (q + 1 + k) := by
        funext k
        simp only [Function.comp, Nat.succ_eq_add_one]
        congr 1
        omega
      rw [hfun]
      rfl
    · rw [if_neg hflush]
      have hnext := ih (i + 1) q (by omega) (by intro; omega) (by intro; omega)
      have hlen : i + 1 - (100 * q + 1) = i - (100 * q + 1) + 1 := by omega
      rw [hlen] at hnext
      exact hnext

theorem bulkLoop_eq_attempt_batches (client : Client) (indexName : String) (n : Nat)
    (draws : Nat → Draws) :
    bulkLoop client indexName (n : Int) draws n 1 [] =
      attempt client indexName draws (batches n) := by
  have h := bulkLoop_eq_attempt client indexName n draws n 1 0 (by omega) (by intro; omega)
    (by intro h; omega)
  simpa [batches, payload] using h

theorem bulkSucceeds_iff (client : Client) (indexName : String) (body : List Line) :
    bulkSucceeds client indexName body = true ↔
      ∃ res, client.Bulk indexName body = .ok res ∧ res.IsError = false := by
  unfold bulkSucceeds
  cases client.Bulk indexName body with
  | error cause => simp
  | ok res => simp

theorem attempt_all_succeed (client : Client) (indexName : String) (draws : Nat → Draws)
    (bs : List (List Nat))
    (h : ∀ ids ∈ bs, bulkSucceeds client indexName (payload indexName draws ids) = true) :
    attempt client indexName draws bs = ⟨bs.map (bulkCall indexName draws), none⟩ := by
  induction bs with
  | nil => rfl
  | cons b rest ih =>
    obtain ⟨res, hres, hok⟩ := (bulkSucceeds_iff _ _ _).mp (h b (List.mem_cons_self _ _))
    have hrest := ih (fun ids hm => h ids (List.mem_cons_of_mem _ hm))
    simp only [attempt, hres, hok, hrest, List.map_cons]
    rfl

theorem attempt_first_failure (client : Client) (indexName : String) (draws : Nat → Draws) :
    ∀ (bs : List (List Nat)) (k : Nat),
      (∀ ids ∈ bs.take k, bulkSucceeds client indexName (payload indexName draws ids) = true) →
      (∃ ids, bs[k]? = some ids ∧
        bulkSucceeds client indexName (payload indexName draws ids) = false) →
      (attempt client indexName draws bs).calls = (bs.take (k + 1)).map (bulkCall indexName draws) ∧
      (attempt client indexName draws bs).err ≠ none := by
  intro bs
  induction bs with
  | nil =>
    intro k _ ⟨ids, hk, _⟩
    simp at hk
  | cons b rest ih =>
    intro k hbefore ⟨ids, hk, hfail⟩
    cases k with
    | zero =>
      simp at hk
      subst hk
      unfold bulkSucceeds at hfail
      cases hres : client.Bulk indexName (payload indexName draws b) with
      | error cause => simp [attempt, hres]
      | ok res =>
        rw [hres] at hfail
        have herr : res.IsError = true := by simpa using hfail
        simp [attempt, hres, herr]
    | succ k =>
      obtain ⟨res, hres, hok⟩ := (bulkSucceeds_iff _ _ _).mp
        (hbefore b (by simp))
      have hrest := ih k (fun ids2 hm => hbefore ids2 (by simp [hm])) ⟨ids, by simpa using hk, hfail⟩
      simp only [attempt, hres, hok]
      simpa using hrest

theorem batches_length (n : Nat) : (batches n).length = (n + 99) / 100 := by
  simp [batches]

theorem batches_getElem? (n k : Nat) (hk : k < (n + 99) / 100) :
    (batches n)[k]? = some (List.range' (100 * k + 1) (min 100 (n - 100 * k))) := by
  simp [batches, List.getElem?_map, List.getElem?_range hk, batchIds]

theorem mem_batches (n : Nat) (ids : List Nat) (h : ids ∈ batches n) :
    ∃ k, k < (n + 99) / 100 ∧ ids = batchIds n k := by
  simp only [batches, List.mem_map, List.mem_range] at h
  obtain ⟨k, hk, rfl⟩ := h
  exact ⟨k, hk, rfl⟩

theorem batchIds_length (n k : Nat) : (batchIds n k).length = min 100 (n - 100 * k) := by
  simp [batchIds]

theorem flatten_batches_from (n : Nat) :
    ∀ m q : Nat, (n + 99) / 100 - q = m →
      ((List.range m).map (fun k => batchIds n (q + k))).flatten =
        List.range' (100 * q + 1) (n - 100 * q) := by
  intro m
  induction m with
  | zero =>
    intro q h
    have : n - 100 * q = 0 := by omega
    simp [this]
  | succ m ih =>
    intro q h
    have hfun : ((fun k => batchIds n (q + k)) ∘ Nat.succ) = fun k => batchIds n (q + 1 + k) := by
      funext k
      simp only [Function.comp, Nat.succ_eq_add_one]
      congr 1
      omega
    rw [List.range_succ_eq_map, List.map_cons, List.map_map, hfun, List.flatten_cons,
      ih (q + 1) (by omega)]
    simp only [Nat.add_zero, batchIds]
    by_cases hfull : 100 ≤ n - 100 * q
    · rw [Nat.min_eq_left hfull]
      have h1 : 100 * (q + 1) + 1 = (100 * q + 1) + 1 * 100 := by omega
      rw [h1, List.range'_append]
      congr 1
      omega
    · have h0 : n - 100 * (q + 1) = 0 := by omega
      have hmin : min 100 (n - 100 * q) = n - 100 * q := by omega
      rw [h0, hmin]
      simp

theorem flatten_batches (n : Nat) : (batches n).flatten = List.range' 1 n := by
  have h := flatten_batches_from n ((n + 99) / 100) 0 (by omega)
  simpa [batches] using h

theorem countBulk_bulkCalls (indexName : String) (draws : Nat → Draws) (bs : List (List Nat)) :
    countBulk (bs.map (bulkCall indexName draws)) = bs.length := by
  induction bs with
  | nil => rfl
  | cons b rest ih =>
    simp only [countBulk, List.map_cons, bulkCall, List.filter_cons_of_pos, List.length_cons] at ih ⊢
    rw [ih]

theorem countRefresh_bulkCalls (indexName : String) (draws : Nat → Draws) (bs : List (List Nat)) :
    countRefresh (bs.map (bulkCall indexName draws)) = 0 := by
  induction bs with
  | nil => rfl
  | cons b rest ih =>
    simp only [countRefresh, List.map_cons, bulkCall] at ih ⊢
    rw [List.filter_cons_of_neg (by simp)]
    exact ih

theorem countBulk_append (xs ys : List Call) : countBulk (xs ++ ys) = countBulk xs + countBulk ys := by
  simp [countBulk, List.filter_append]

theorem countRefresh_append (xs ys : List Call) :
    countRefresh (xs ++ ys) = countRefresh xs + countRefresh ys := by
  simp [countRefresh, List.filter_append]

theorem refresh_calls (client : Client) (indexName : String) :
    (refresh client indexName).calls = [.indicesRefresh indexName] := by
  unfold refresh
  cases client.IndicesRefresh indexName with
  | error cause => rfl
  | ok res => by_cases h : res.IsError = true <;> simp [h]

theorem seedData_of_created (client : Client) (indexName : String) (n : Nat)
    (draws : Nat → Draws) (hcreate : ∃ res, client.IndicesCreate indexName mappings = .ok res) :
    seedData client indexName (n : Int) draws =
      match (attempt client indexName draws (batches n)).err with
      | some e =>
        ⟨[.indicesDelete [indexName], .indicesCreate indexName mappings] ++
          (attempt client indexName draws (batches n)).calls, some e⟩
      | none =>
        ⟨[.indicesDelete [indexName], .indicesCreate indexName mappings] ++
          ((attempt client indexName draws (batches n)).calls ++ [.indicesRefresh indexName]),
         (refresh client indexName).err⟩ := by
  obtain ⟨res, hres⟩ := hcreate
  simp only [seedData, hres, bulkIndexing, Int.toNat_ofNat, bulkLoop_eq_attempt_batches]
  cases (attempt client indexName draws (batches n)).err with
  | some e => rfl
  | none => simp only [refresh_calls]

/-! ## C9: the batches of a load on which every bulk call succeeds -/

/-- C9, as amended. When the index creation returns no error and every bulk call
succeeds, `seedData` issues, after deleting and creating the index, exactly
`⌈n / 100⌉` bulk calls followed by exactly one refresh call; the bulk body
number `k` (from 0) holds, in increasing order of id, the action line and the
document line of each record with id `100 k + 1, ..., min (100 (k + 1)) n`; the
batches together hold every id of `1, ..., n` exactly once, none is empty and
every batch but the last holds 100 records. -/
theorem load_issues_all_batches (client : Client) (indexName : String) (n : Nat)
    (draws : Nat → Draws)
    (hcreate : ∃ res, client.IndicesCreate indexName mappings = .ok res)
    (hbulk : ∀ ids ∈ batches n,
      bulkSucceeds client indexName (payload indexName draws ids) = true) :
    (seedData client indexName (n : Int) draws).calls =
      [.indicesDelete [indexName], .indicesCreate indexName mappings] ++
        ((batches n).map (fun ids => Call.bulk indexName (payload indexName draws ids)) ++
          [.indicesRefresh indexName]) ∧
    countBulk (seedData client indexName (n : Int) draws).calls = (n + 99) / 100 ∧
    countRefresh (seedData client indexName (n : Int) draws).calls = 1 ∧
    (batches n).length = (n + 99) / 100 ∧
    (∀ k, k < (n + 99) / 100 →
      (batches n)[k]? = some (List.range' (100 * k + 1) (min 100 (n - 100 * k)))) ∧
    (batches n).flatten = List.range' 1 n ∧
    (∀ ids ∈ batches n, ids ≠ []) ∧
    (∀ k, k + 1 < (n + 99) / 100 → ((batches n)[k]?.map List.length) = some 100) := by
  have hall := attempt_all_succeed client indexName draws (batches n) hbulk
  have hseed := seedData_of_created client indexName n draws hcreate
  rw [hall] at hseed
  have hcalls : (seedData client indexName (n : Int) draws).calls =
      [.indicesDelete [indexName], .indicesCreate indexName mappings] ++
        ((batches n).map (bulkCall indexName draws) ++ [.indicesRefresh indexName]) := by
    rw [hseed]
  refine ⟨hcalls, ?_, ?_, batches_length n, batches_getElem? n, flatten_batches n, ?_, ?_⟩
  · rw [hcalls, countBulk_append, countBulk_append, countBulk_bulkCalls, batches_length]
    simp [countBulk]
  · rw [hcalls, countRefresh_append, countRefresh_append, countRefresh_bulkCalls]
    simp [countRefresh]
  · intro ids hm
    obtain ⟨k, hk, rfl⟩ := mem_batches n ids hm
    intro hnil
    have hlen := batchIds_length n k
    rw [hnil] at hlen
    simp only [List.length_nil] at hlen
    omega
  · intro k hk
    rw [batches_getElem? n k (by omega)]
    simp only [Option.map_some', List.length_range', Option.some.injEq]
    omega

/-- C9, instance: 250 records on an engine where every call succeeds give the
batches of 100, 100 and 50 records and one refresh. -/
theorem load_issues_all_batches_witness :
    (∃ res, healthyClient.IndicesCreate "products" mappings = .ok res) ∧
    (∀ ids ∈ batches 250,
      bulkSucceeds healthyClient "products" (payload "products" sampleDraws ids) = true) ∧
    (batches 250).map List.length = [100, 100, 50] ∧
    ((seedData healthyClient "products" ((250 : Nat) : Int) sampleDraws).calls =
      [.indicesDelete ["products"], .indicesCreate "products" mappings] ++
        ((batches 250).map (fun ids => Call.bulk "products" (payload "products" sampleDraws ids)) ++
          [.indicesRefresh "products"]) ∧
     countBulk (seedData healthyClient "products" ((250 : Nat) : Int) sampleDraws).calls =
       (250 + 99) / 100 ∧
     countRefresh (seedData healthyClient "products" ((250 : Nat) : Int) sampleDraws).calls = 1 ∧
     (batches 250).length = (250 + 99) / 100 ∧
     (∀ k, k < (250 + 99) / 100 →
       (batches 250)[k]? = some (List.range' (100 * k + 1) (min 100 (250 - 100 * k)))) ∧
     (batches 250).flatten = List.range' 1 250 ∧
     (∀ ids ∈ batches 250, ids ≠ []) ∧
     (∀ k, k + 1 < (250 + 99) / 100 → ((batches 250)[k]?.map List.length) = some 100)) :=
  ⟨⟨⟨200⟩, rfl⟩, fun _ _ => rfl, by decide,
   load_issues_all_batches healthyClient "products" 250 sampleDraws ⟨⟨200⟩, rfl⟩
     (fun _ _ => rfl)⟩

/-- C9 as stated fails: when the index cannot be created, `seedData` returns the
error before the loop, so with 250 records it issues no bulk call and no
refresh, although no bulk call fails on that engine. -/
theorem load_after_failed_creation_issues_nothing :
    (∀ index body, bulkSucceeds createFails index body = true) ∧
    (seedData createFails "products" 250 sampleDraws) =
      { calls := [.indicesDelete ["products"], .indicesCreate "products" mappings],
        err := some (.creatingIndex "connection refused") } ∧
    countBulk (seedData createFails "products" 250 sampleDraws).calls = 0 ∧
    countRefresh (seedData createFails "products" 250 sampleDraws).calls = 0 ∧
    (250 + 99) / 100 = 3 :=
  ⟨fun _ _ => rfl, rfl, rfl, rfl, rfl⟩

/-! ## C10: a batch that fails -/

/-- C10, as amended. The calls issued depend on the batch outcomes: `seedData`
stops at the first batch that fails. When the index creation returns no error,
the batches before batch `k` (from 0) succeed and batch `k` fails, by a
transport error or an error status, `seedData` issues the bulk calls of the
batches `0, ..., k` and no other, issues no refresh call, and returns an error. -/
theorem load_stops_at_first_failure (client : Client) (indexName : String) (n : Nat)
    (draws : Nat → Draws) (k : Nat)
    (hcreate : ∃ res, client.IndicesCreate indexName mappings = .ok res)
    (hbefore : ∀ ids ∈ (batches n).take k,
      bulkSucceeds client indexName (payload indexName draws ids) = true)
    (hfail : ∃ ids, (batches n)[k]? = some ids ∧
      bulkSucceeds client indexName (payload indexName draws ids) = false) :
    (seedData client indexName (n : Int) draws).calls =
      [.indicesDelete [indexName], .indicesCreate indexName mappings] ++
        ((batches n).take (k + 1)).map
          (fun ids => Call.bulk indexName (payload indexName draws ids)) ∧
    countBulk (seedData client indexName (n : Int) draws).calls = k + 1 ∧
    countRefresh (seedData client indexName (n : Int) draws).calls = 0 ∧
    (seedData client indexName (n : Int) draws).err ≠ none := by
  obtain ⟨hc, he⟩ := attempt_first_failure client indexName draws (batches n) k hbefore hfail
  have hseed := seedData_of_created client indexName n draws hcreate
  have hk : k < (batches n).length := by
    obtain ⟨ids, hids, _⟩ := hfail
    exact (List.getElem?_eq_some_iff.mp hids).1
  cases herr : (attempt client indexName draws (batches n)).err with
  | none => exact absurd herr he
  | some e =>
    rw [herr] at hseed
    have hcalls : (seedData client indexName (n : Int) draws).calls =
        [.indicesDelete [indexName], .indicesCreate indexName mappings] ++
          ((batches n).take (k + 1)).map (bulkCall indexName draws) := by
      rw [hseed, ← hc]
    refine ⟨hcalls, ?_, ?_, ?_⟩
    · rw [hcalls, countBulk_append, countBulk_bulkCalls, List.length_take]
      simp only [countBulk, List.filter_cons_of_neg, List.filter_nil, List.length_nil,
        Bool.false_eq_true, not_false_eq_true]
      omega
    · rw [hcalls, countRefresh_append, countRefresh_bulkCalls]
      simp [countRefresh]
    · rw [hseed]
      simp

/-- C10, instance: 250 records on an engine whose second batch fails. -/
theorem load_stops_at_first_failure_witness :
    (∃ res, secondBatchFails.IndicesCreate "products" mappings = .ok res) ∧
    (∀ ids ∈ (batches 250).take 1,
      bulkSucceeds secondBatchFails "products" (payload "products" sampleDraws ids) = true) ∧
    (∃ ids, (batches 250)[1]? = some ids ∧
      bulkSucceeds secondBatchFails "products" (payload "products" sampleDraws ids) = false) ∧
    ((seedData secondBatchFails "products" ((250 : Nat) : Int) sampleDraws).calls =
      [.indicesDelete ["products"], .indicesCreate "products" mappings] ++
        ((batches 250).take (1 + 1)).map
          (fun ids => Call.bulk "products" (payload "products" sampleDraws ids)) ∧
     countBulk (seedData secondBatchFails "products" ((250 : Nat) : Int) sampleDraws).calls = 1 + 1 ∧
     countRefresh (seedData secondBatchFails "products" ((250 : Nat) : Int) sampleDraws).calls = 0 ∧
     (seedData secondBatchFails "products" ((250 : Nat) : Int) sampleDraws).err ≠ none) :=
  have hcreate : ∃ res, secondBatchFails.IndicesCreate "products" mappings = .ok res :=
    ⟨⟨200⟩, rfl⟩
  have hbefore : ∀ ids ∈ (batches 250).take 1,
      bulkSucceeds secondBatchFails "products" (payload "products" sampleDraws ids) = true := by
    decide
  have hfail : ∃ ids, (batches 250)[1]? = some ids ∧
      bulkSucceeds secondBatchFails "products" (payload "products" sampleDraws ids) = false :=
    ⟨batchIds 250 1, by decide, by decide⟩
  ⟨hcreate, hbefore, hfail,
   load_stops_at_first_failure secondBatchFails "products" 250 sampleDraws 1 hcreate hbefore hfail⟩

set_option maxRecDepth 100000 in
/-- C10 as stated fails: with 250 records and a transport failure on batch 2 of
3, `seedData` issues two bulk calls, not three, and no refresh call: batch 3 is
never attempted, and the run ends with the error of batch 2. -/
theorem failed_second_batch_ends_the_load :
    countBulk (seedData secondBatchFails "products" 250 sampleDraws).calls = 2 ∧
    countRefresh (seedData secondBatchFails "products" 250 sampleDraws).calls = 0 ∧
    Call.bulk "products" (payload "products" sampleDraws (batchIds 250 2)) ∉
      (seedData secondBatchFails "products" 250 sampleDraws).calls ∧
    (seedData secondBatchFails "products" 250 sampleDraws).err =
      some (.bulkIndexing "connection reset") ∧
    (250 + 99) / 100 = 3 := by
  refine ⟨by decide, by decide, by decide, by rfl, rfl⟩

end DummyData

/-! ## The point lookup `GetUser` -/

namespace Crud

theorem text_ne_of_head (pre rest : String) (h : pre.data.head? ≠ some 'd') (hp : pre ≠ "") :
    "document not found" ≠ pre ++ rest := by
  intro heq
  have h2 := congrArg (fun s => s.data.head?) heq
  simp only [String.data_append] at h2
  cases hd : pre.data with
  | nil => exact hp (String.ext hd)
  | cons a as =>
    rw [hd] at h h2
    simp at h h2
    exact h h2.symm

theorem getting_text_ne (rest : String) :
    "document not found" ≠ "error getting document: " ++ rest :=
  text_ne_of_head _ rest (by decide) (by decide)

theorem parsing_text_ne (rest : String) :
    "document not found" ≠ "error parsing response: " ++ rest :=
  text_ne_of_head _ rest (by decide) (by decide)

theorem GetUser_of_404 (c : ElasticsearchClient) (userId : String) (res : Response)
    (hget : c.Get c.index userId = .ok res) (h404 : res.StatusCode = 404) :
    GetUser c userId = .fails (errorNew "document not found") := by
  have herr : res.IsError = true := by simp [Response.IsError, h404]
  simp [GetUser, hget, herr, h404]

theorem GetUser_not_found_only_of_404 (c : ElasticsearchClient) (userId : String)
    (h : GetUser c userId = .fails (errorNew "document not found")) :
    ∃ res, c.Get c.index userId = .ok res ∧ res.StatusCode = 404 := by
  unfold GetUser at h
  cases hget : c.Get c.index userId with
  | error cause =>
    rw [hget] at h
    simp only [Outcome.fails.injEq, errorWrap, errorNew, GoError.mk.injEq] at h
    exact absurd h.1.symm (getting_text_ne cause)
  | ok res =>
    rw [hget] at h
    refine ⟨res, rfl, ?_⟩
    by_cases herr : res.IsError = true
    · by_cases h404 : res.StatusCode = 404
      · exact h404
      · simp only [herr, h404, if_true, if_false, Outcome.fails.injEq, errorNew,
          GoError.mk.injEq] at h
        exact absurd h.1.symm (getting_text_ne res.text)
    · simp only [herr, Bool.false_eq_true, if_false] at h
      cases hbody : res.body with
      | error cause =>
        rw [hbody] at h
        simp only [Outcome.fails.injEq, errorWrap, errorNew, GoError.mk.injEq] at h
        exact absurd h.1.symm (parsing_text_ne cause)
      | ok result =>
        rw [hbody] at h
        simp only at h
        split at h
        · cases h
        · split at h
          · cases h
          · split at h
            · cases h
            · split at h <;> cases h

/-! ## C11: not found is told apart -/

/-- C11. When the response to the lookup has status 404, `GetUser` returns no
user and the error `document not found`. Every other failure of `GetUser` ends
differently: a transport failure, an error response with another status and an
unparsable body each return an error whose text is not `document not found`;
and any lookup that ends like the not-found one had a response with status 404. -/
theorem not_found_is_told_apart (c : ElasticsearchClient) (userId : String) (res : Response)
    (hget : c.Get c.index userId = .ok res) (h404 : res.StatusCode = 404) :
    GetUser c userId = .fails (errorNew "document not found") ∧
    (∀ user, GetUser c userId ≠ .returns user) ∧
    ∀ (c2 : ElasticsearchClient) (id2 : String),
      (∀ cause, c2.Get c2.index id2 = .error cause →
        GetUser c2 id2 = .fails (errorWrap "error getting document: " cause) ∧
        GetUser c2 id2 ≠ GetUser c userId ∧
        (errorWrap "error getting document: " cause).Error ≠ "document not found") ∧
      (∀ res2, c2.Get c2.index id2 = .ok res2 → res2.IsError = true → res2.StatusCode ≠ 404 →
        GetUser c2 id2 = .fails (errorNew ("error getting document: " ++ res2.text)) ∧
        GetUser c2 id2 ≠ GetUser c userId ∧
        (errorNew ("error getting document: " ++ res2.text)).Error ≠ "document not found") ∧
      (∀ res2 cause, c2.Get c2.index id2 = .ok res2 → res2.IsError = false →
        res2.body = .error cause →
        GetUser c2 id2 = .fails (errorWrap "error parsing response: " cause) ∧
        GetUser c2 id2 ≠ GetUser c userId ∧
        (errorWrap "error parsing response: " cause).Error ≠ "document not found") ∧
      (GetUser c2 id2 = GetUser c userId →
        ∃ res2, c2.Get c2.index id2 = .ok res2 ∧ res2.StatusCode = 404) := by
  have hnf := GetUser_of_404 c userId res hget h404
  refine ⟨hnf, ?_, ?_⟩
  · intro user hu
    rw [hnf] at hu
    cases hu
  · intro c2 id2
    have honly : GetUser c2 id2 = GetUser c userId →
        ∃ res2, c2.Get c2.index id2 = .ok res2 ∧ res2.StatusCode = 404 := by
      intro h
      rw [hnf] at h
      exact GetUser_not_found_only_of_404 c2 id2 h
    refine ⟨?_, ?_, ?_, honly⟩
    · intro cause hc
      refine ⟨by simp [GetUser, hc], ?_, fun h => getting_text_ne cause h.symm⟩
      intro h
      obtain ⟨res2, h2, _⟩ := honly h
      rw [hc] at h2
      cases h2
    · intro res2 hc herr hne
      refine ⟨by simp [GetUser, hc, herr, hne], ?_, fun h => getting_text_ne res2.text h.symm⟩
      intro h
      obtain ⟨res3, h3, h404b⟩ := honly h
      rw [hc] at h3
      cases h3
      exact hne h404b
    · intro res2 cause hc herr hbody
      refine ⟨by simp [GetUser, hc, herr, hbody], ?_, fun h => parsing_text_ne cause h.symm⟩
      intro h
      obtain ⟨res3, h3, h404b⟩ := honly h
      rw [hc] at h3
      cases h3
      simp [Response.IsError, h404b] at herr

/-- C11, instance: a lookup on an engine that answers 404. -/
theorem not_found_is_told_apart_witness :
    GetUser emptyIndex "3" = .fails (errorNew "document not found") ∧
    (∀ user, GetUser emptyIndex "3" ≠ .returns user) ∧
    ∀ (c2 : ElasticsearchClient) (id2 : String),
      (∀ cause, c2.Get c2.index id2 = .error cause →
        GetUser c2 id2 = .fails (errorWrap "error getting document: " cause) ∧
        GetUser c2 id2 ≠ GetUser emptyIndex "3" ∧
        (errorWrap "error getting document: " cause).Error ≠ "document not found") ∧
      (∀ res2, c2.Get c2.index id2 = .ok res2 → res2.IsError = true → res2.StatusCode ≠ 404 →
        GetUser c2 id2 = .fails (errorNew ("error getting document: " ++ res2.text)) ∧
        GetUser c2 id2 ≠ GetUser emptyIndex "3" ∧
        (errorNew ("error getting document: " ++ res2.text)).Error ≠ "document not found") ∧
      (∀ res2 cause, c2.Get c2.index id2 = .ok res2 → res2.IsError = false →
        res2.body = .error cause →
        GetUser c2 id2 = .fails (errorWrap "error parsing response: " cause) ∧
        GetUser c2 id2 ≠ GetUser emptyIndex "3" ∧
        (errorWrap "error parsing response: " cause).Error ≠ "document not found") ∧
      (GetUser c2 id2 = GetUser emptyIndex "3" →
        ∃ res2, c2.Get c2.index id2 = .ok res2 ∧ res2.StatusCode = 404) :=
  not_found_is_told_apart emptyIndex "3"
    { StatusCode := 404, text := "[404 Not Found]", body := .ok [("found", .bool false)] } rfl rfl

end Crud

/-! ## The categories of a generated product -/

namespace DummyData

theorem pick_mem (table : List String) (draw : Nat) (h : 0 < table.length) :
    pick table draw ∈ table := by
  unfold pick
  have hlt : draw % table.length < table.length := Nat.mod_lt _ h
  rw [List.getD_eq_getElem _ _ hlt]
  exact List.getElem_mem hlt

theorem pickCategories_mem (d : Draws) :
    ∀ (remaining i : Nat) (acc : List String), (∀ x ∈ acc, x ∈ categories) →
      ∀ x ∈ pickCategories d remaining i acc, x ∈ categories := by
  intro remaining
  induction remaining with
  | zero => intro i acc h x hx; exact h x hx
  | succ r ih =>
    intro i acc h
    simp only [pickCategories]
    split
    · exact ih (i + 1) acc h
    · apply ih (i + 1)
      intro x hx
      rcases List.mem_append.mp hx with hx | hx
      · exact h x hx
      · rw [List.mem_singleton] at hx
        rw [hx]
        exact pick_mem categories _ (by decide)

theorem pickCategories_length (d : Draws) :
    ∀ (remaining i : Nat) (acc : List String),
      acc.length ≤ (pickCategories d remaining i acc).length ∧
      (pickCategories d remaining i acc).length ≤ acc.length + remaining := by
  intro remaining
  induction remaining with
  | zero => intro i acc; simp [pickCategories]
  | succ r ih =>
    intro i acc
    simp only [pickCategories]
    split
    · have := ih (i + 1) acc
      omega
    · have := ih (i + 1) (acc ++ [pick categories (d.category i)])
      simp only [List.length_append, List.length_singleton] at this
      omega

/-- For every id and all draws, the categories of the generated product are
between one and three entries of the table `categories`. -/
theorem generateProduct_categories (id : Nat) (d : Draws) :
    1 ≤ (generateProduct id d).Categories.length ∧
    (generateProduct id d).Categories.length ≤ 3 ∧
    ∀ x ∈ (generateProduct id d).Categories, x ∈ categories := by
  have hcat : (generateProduct id d).Categories = pickCategories d (d.numCategories % 2 + 2) 0 [] :=
    rfl
  rw [hcat]
  refine ⟨?_, ?_, pickCategories_mem d _ 0 [] (by simp)⟩
  · have hstep : pickCategories d (d.numCategories % 2 + 2) 0 [] =
        pickCategories d (d.numCategories % 2 + 1) 1 [pick categories (d.category 0)] := by
      simp [pickCategories, contains]
    rw [hstep]
    have := (pickCategories_length d (d.numCategories % 2 + 1) 1
      [pick categories (d.category 0)]).1
    simpa using this
  · have := (pickCategories_length d (d.numCategories % 2 + 2) 0 []).2
    simp only [List.length_nil] at this
    omega

/-! ## C12: two or three categories -/

/-- C12 fails on the code. With draws in which `rand.Intn(2)` yields 0 and the
same category index is drawn twice, `generateProduct` asks for two categories,
skips the repeated one, and returns a product with the single category
`Laptops`: one entry, not two or three. -/
theorem repeated_category_leaves_one :
    repeatedCategory.numCategories % 2 + 2 = 2 ∧
    (generateProduct 1 repeatedCategory).Categories = ["Laptops"] ∧
    (generateProduct 1 repeatedCategory).Categories.length = 1 ∧
    ¬ (2 ≤ (generateProduct 1 repeatedCategory).Categories.length) :=
  ⟨rfl, rfl, rfl, by decide⟩

end DummyData

end ElasticSearch
